import Mathlib

/-!
Shallow embedding of the grid thermal-contingency simulator of
HackOhio25_AEP (`app.py` and `ieee738/ieee738.py`).

Numeric values are modelled as exact rationals (`ℚ`).  The transcendental
parts of the IEEE-738 heat balance (fractional powers in the convection
terms, trigonometry in the solar terms, and `math.sqrt`) are taken as
parameters (`qc`, `qs`, `sq`): every theorem below quantifies over them,
so each theorem holds for the actual floating-point values in particular.
The per-line thermal rating used by the simulator is likewise abstracted
as a function `rate : ℚ → ℚ → Line → Option ℚ` (temperature, wind, line ↦
rating in MVA; `none` models the `except` branch of the per-line `try`).
-/

namespace AEP

/-! ## ieee738.py : `Conductor.input_validation` and
`Conductor.steady_state_thermal_rating` -/

inductive Direction where
  | EastWest
  | NorthSouth
deriving DecidableEq, Repr

inductive Atmosphere where
  | Clear
  | Industrial
deriving DecidableEq, Repr

/-- Fields of `ConductorParams` (pydantic model in `ieee738.py`).  `Date` is
omitted: it only feeds the solar terms, which are abstracted. -/
structure ConductorParams where
  Ta : ℚ
  WindVelocity : ℚ
  WindAngleDeg : ℚ
  Elevation : ℚ
  Latitude : ℚ
  SunTime : ℚ
  Emissivity : ℚ
  Absorptivity : ℚ
  Direction : Direction
  Atmosphere : Atmosphere
  Tc : ℚ
  Diameter : ℚ
  TLo : ℚ
  RLo : ℚ
  THi : ℚ
  RHi : ℚ
  ConductorsPerBundle : ℕ
deriving DecidableEq, Repr

/-- The numeric guard in `natural_convection_heat_loss`: when `Tc - Ta < 0`
the code mutates `self.Tc` to `Ta + 0.1`; all later uses of `Tc` inside
`steady_state_thermal_rating` (radiated loss, resistance interpolation)
see the clamped value. -/
def clampTc (p : ConductorParams) : ℚ :=
  if p.Tc - p.Ta < 0 then p.Ta + 1 / 10 else p.Tc

/-- `Conductor.radiated_heat_loss`, evaluated at the (possibly clamped)
conductor temperature:
`qr = 0.138 * D * E * (((Tc + 273)/100)^4 - ((Ta + 273)/100)^4)`. -/
def radiated_heat_loss (p : ConductorParams) (TcEff : ℚ) : ℚ :=
  138 / 1000 * p.Diameter * p.Emissivity *
    (((TcEff + 273) / 100) ^ 4 - ((p.Ta + 273) / 100) ^ 4)

/-- The interpolation expression of `Conductor.get_res_Tc`, meaningful only
when `THi - TLo` is non-zero (the guarded case of `get_res_Tc`). -/
def res_Tc_formula (p : ConductorParams) (TcEff : ℚ) : ℚ :=
  p.RLo + ((p.RHi - p.RLo) / (p.THi - p.TLo)) * (TcEff - p.TLo)

/-- `Conductor.get_res_Tc`: linear interpolation of the resistance between
the two reference points.  The Python division by `THi - TLo` is unguarded
and raises `ZeroDivisionError` when the two reference temperatures
coincide — a case `input_validation` does not reject. -/
def get_res_Tc (p : ConductorParams) (TcEff : ℚ) : Except String ℚ :=
  if p.THi - p.TLo = 0 then .error "ZeroDivisionError: float division by zero"
  else .ok (res_Tc_formula p TcEff)

/-- `Conductor.input_validation`.  The `hasattr` loop always succeeds for a
constructed `ConductorParams` (pydantic requires every field), so only the
four numeric range checks remain.  Note the code checks only `> 0.001` for
the resistances and only `< 0` for absorptivity and emissivity. -/
def input_validation (p : ConductorParams) : Except String Unit :=
  if p.RLo > 1 / 1000 then
    .error "RLo is much higher than expected.  Units should be Ohms/ft."
  else if p.RHi > 1 / 1000 then
    .error "RLo is much higher than expected.  Units should be Ohms/ft."
  else if p.Absorptivity < 0 then .error "Absorptivity out of range."
  else if p.Emissivity < 0 then .error "Emissivity is out of range."
  else .ok ()

/-- `Conductor.steady_state_thermal_rating`.  `qc` (convection heat loss)
and `qs` (solar heat gain) involve fractional powers and trigonometry and
are taken as inputs; `sq` abstracts `math.sqrt` on its valid domain (it is
only ever applied to a non-negative argument).  The raise points of the
Python code, in evaluation order: `input_validation`, the unguarded
division in `get_res_Tc` (computed before the zero checks), the `qs == 0`
and `qr == 0` checks, and — only when the radicand `qc + qr - qs` is
non-negative, since a negative radicand short-circuits to a rating of 0 —
the division `(qc + qr - qs) / rTc` (`ZeroDivisionError` at `rTc == 0`)
and `math.sqrt` of a negative quotient (`ValueError` when `rTc < 0` and
the radicand is positive). -/
def steady_state_thermal_rating (sq : ℚ → ℚ) (p : ConductorParams)
    (qc qs : ℚ) : Except String ℚ :=
  match input_validation p with
  | .error e => .error e
  | .ok _ =>
    let TcEff := clampTc p
    let qr := radiated_heat_loss p TcEff
    match get_res_Tc p TcEff with
    | .error e => .error e
    | .ok rTc =>
      if qs = 0 then
        .error "Qs (solar heat gain) is zero.  Something went wrong in the calculation"
      else if qr = 0 then
        .error "Qr (radiated heat loss) is zero.  Something went wrong in the calculation"
      else if qc + qr - qs < 0 then .ok (0 * p.ConductorsPerBundle)
      else if rTc = 0 then .error "ZeroDivisionError: float division by zero"
      else if (qc + qr - qs) / rTc < 0 then .error "ValueError: math domain error"
      else .ok (sq ((qc + qr - qs) / rTc) * p.ConductorsPerBundle)

/-! ## app.py : data model of the simulator -/

/-- The five status strings assigned by `calculate_physics_state_internal`. -/
inductive Status where
  | ok
  | stressed
  | overloaded
  | offline
  | error
deriving DecidableEq, Repr

/-- The colors assigned by `calculate_physics_state_internal`. -/
inductive Color where
  | green
  | red
  | orange
  | black
  | gray
deriving DecidableEq, Repr

/-- One row of `master_df`, restricted to the columns the simulator logic
reads directly; the conductor columns (`RES_25C`, `RES_50C`, `CDRAD_in`,
`MOT`) only feed the abstracted `rate` function. -/
structure Line where
  name : String
  bus0 : String
  bus1 : String
  v_nom : ℚ
  p0_nominal : ℚ
deriving DecidableEq, Repr

/-- One element of `line_results`. -/
structure LineResult where
  name : String
  bus0 : String
  bus1 : String
  loading : ℚ
  initial_status : Status
  final_color : Color
  current_mva : ℚ
  rating_mva : ℚ
deriving DecidableEq, Repr

/-- The `report` dict. -/
structure Report where
  overall_stress : ℚ
  top_failures : List LineResult
  failure_count : ℕ
deriving DecidableEq, Repr

/-- Return value of `calculate_physics_state_internal`; `bus_results` is the
set of bus names mapped to the string `overloaded` (the only value ever
stored in `bus_status`). -/
structure SimResult where
  line_results : List LineResult
  bus_results : Finset String
  report : Report
deriving DecidableEq

/-- Sum of `p0_nominal` over the rows of `ls` at voltage level `v`:
`ls.groupby(v_nom)[p0_nominal].sum().get(v, 0)`. -/
def sumP0At (ls : List Line) (v : ℚ) : ℚ :=
  ((ls.filter fun l => decide (l.v_nom = v)).map Line.p0_nominal).sum

/-- Redistributed load of an active line (`current_load_mva`):
`base_load_mva + extra_load_mva`, where the extra load is the displaced
offline load at this voltage level times `p0_nominal / total_active`,
guarded by `total_active > 0`. -/
def line_current (l : Line) (load_mult : ℚ) (offlineLoadAt activeNomAt : ℚ → ℚ) : ℚ :=
  l.p0_nominal * load_mult +
    (if activeNomAt l.v_nom > 0 then
      offlineLoadAt l.v_nom * (l.p0_nominal / activeNomAt l.v_nom)
    else 0)

/-- `loading_percent`: `((current / rating) * 100) - 100` when
`rating_mva > 0`, else `0`. -/
def line_loading (current rating : ℚ) : ℚ :=
  if rating > 0 then current / rating * 100 - 100 else 0

/-- `line_status`: `overloaded` when `loading > 0`, `stressed` when
`loading > -15`, else `ok`. -/
def line_status (loading : ℚ) : Status :=
  if loading > 0 then .overloaded
  else if loading > -15 then .stressed
  else .ok

/-- Body of the first per-line loop of `calculate_physics_state_internal`:
offline record, error record, or the physics calculation. -/
def processLine (rate : ℚ → ℚ → Line → Option ℚ) (temp wind load_mult : ℚ)
    (curOff : Finset String) (offlineLoadAt activeNomAt : ℚ → ℚ)
    (l : Line) : LineResult :=
  if l.name ∈ curOff then
    ⟨l.name, l.bus0, l.bus1, 0, .offline, .black, 0, 0⟩
  else
    match rate temp wind l with
    | none => ⟨l.name, l.bus0, l.bus1, 0, .error, .gray, 0, 0⟩
    | some rating_mva =>
      ⟨l.name, l.bus0, l.bus1,
        line_loading (line_current l load_mult offlineLoadAt activeNomAt) rating_mva,
        line_status
          (line_loading (line_current l load_mult offlineLoadAt activeNomAt) rating_mva),
        .green,
        line_current l load_mult offlineLoadAt activeNomAt, rating_mva⟩

/-- The `bus_status` dict after the first loop: every bus touching a line
whose status is `overloaded` is marked. -/
def overloadedBuses (rs : List LineResult) : Finset String :=
  rs.foldl
    (fun s r =>
      if r.initial_status = .overloaded then insert r.bus0 (insert r.bus1 s)
      else s)
    ∅

/-- The color-fixing pass (second loop): offline lines are skipped,
overloaded lines become red, lines touching an overloaded bus become
orange, all remaining lines become green. -/
def finalColor (buses : Finset String) (r : LineResult) : LineResult :=
  if r.initial_status = .offline then r
  else if r.initial_status = .overloaded then { r with final_color := .red }
  else if r.bus0 ∈ buses ∨ r.bus1 ∈ buses then { r with final_color := .orange }
  else { r with final_color := .green }

/-- Descending stable order on loading used for `all_failures.sort`. -/
def loadingGE (a b : LineResult) : Prop := b.loading ≤ a.loading

instance : DecidableRel loadingGE := fun _a _b => inferInstanceAs (Decidable (_ ≤ _))

instance : IsTotal LineResult loadingGE := ⟨fun x y => le_total y.loading x.loading⟩

instance : IsTrans LineResult loadingGE := ⟨fun _ _ _ h h2 => le_trans h2 h⟩

/-- `active_lines_df`: the rows whose name is not in the offline set. -/
def active_lines (lines : List Line) (S : Finset String) : List Line :=
  lines.filter fun l => decide (l.name ∉ S)

/-- `offline_lines_df`: the rows whose name is in the offline set. -/
def offline_lines_df (lines : List Line) (S : Finset String) : List Line :=
  lines.filter fun l => decide (l.name ∈ S)

/-- The first per-line loop: every row of `master_df`, processed with the
grouped offline load (`offline_load_mva_by_vnom`) and active nominal load
(`active_nominal_load_by_vnom`) lookups. -/
def simRaw (rate : ℚ → ℚ → Line → Option ℚ) (lines : List Line)
    (S : Finset String) (temp wind load_mult : ℚ) : List LineResult :=
  lines.map
    (processLine rate temp wind load_mult S
      (fun v => sumP0At (offline_lines_df lines S) v * load_mult)
      (fun v => sumP0At (active_lines lines S) v))

/-- `line_results` after the color-fixing pass. -/
def simLineResults (rate : ℚ → ℚ → Line → Option ℚ) (lines : List Line)
    (S : Finset String) (temp wind load_mult : ℚ) : List LineResult :=
  (simRaw rate lines S temp wind load_mult).map
    (finalColor (overloadedBuses (simRaw rate lines S temp wind load_mult)))

/-- `calculate_physics_state_internal(temp, wind, load_mult,
forced_offline_lines)`.  The globals `master_df` and `offline_lines` are
passed explicitly (`master`, `session`); `forced = none` models the
default argument `forced_offline_lines=None`, in which case the code falls
back to the session set. -/
def calculate_physics_state_internal (rate : ℚ → ℚ → Line → Option ℚ)
    (master : Option (List Line)) (session : Finset String)
    (temp wind load_mult : ℚ) (forced : Option (Finset String)) :
    Option SimResult :=
  match master with
  | none => none
  | some lines =>
    let current_offline_set := forced.getD session
    let line_results := simLineResults rate lines current_offline_set temp wind load_mult
    let all_failures := line_results.filter fun r => decide (r.initial_status = .overloaded)
    let total := (all_failures.map LineResult.loading).sum
    let active_lines_count := (active_lines lines current_offline_set).length
    let total_stress_score :=
      if active_lines_count > 0 then total / active_lines_count else total
    let sorted_failures := all_failures.insertionSort loadingGE
    some ⟨line_results, overloadedBuses (simRaw rate lines current_offline_set temp wind load_mult),
      ⟨total_stress_score, sorted_failures, sorted_failures.length⟩⟩

/-- `calculate_physics_state`: the wrapper that always uses the session
(global) offline set. -/
def calculate_physics_state (rate : ℚ → ℚ → Line → Option ℚ)
    (master : Option (List Line)) (session : Finset String)
    (temp wind load_mult : ℚ) : Option SimResult :=
  calculate_physics_state_internal rate master session temp wind load_mult none

/-! ## app.py : `toggle_line` -/

/-- `toggle_line`.  The request body field `line_name` may be absent
(`data.get` returns `None`) or empty; `if not line_name` rejects exactly
those, with a 400 error.  Otherwise the name is removed from or added to
the session offline set — the code performs no lookup against the loaded
topology.  The returned triple mirrors the JSON fields
`(line_name, status, offline_lines)`. -/
def toggle_line (line_name : Option String) (offl : Finset String) :
    Except String (String × String × Finset String) :=
  match line_name with
  | none => .error "line_name required"
  | some n =>
    if n = "" then .error "line_name required"
    else if n ∈ offl then .ok (n, "online", offl.erase n)
    else .ok (n, "offline", insert n offl)

/-! ## app.py : `n_1_analysis` -/

/-- One element of `contingency_results`. -/
structure Contingency where
  line_name : String
  failures_caused : ℤ
deriving DecidableEq, Repr

/-- Descending order on `failures_caused` used for `contingency_results.sort`. -/
def impactGE (a b : Contingency) : Prop := b.failures_caused ≤ a.failures_caused

instance : DecidableRel impactGE := fun _ _ => inferInstanceAs (Decidable (_ ≤ _))

instance : IsTotal Contingency impactGE :=
  ⟨fun x y => le_total y.failures_caused x.failures_caused⟩

instance : IsTrans Contingency impactGE := ⟨fun _ _ _ h h2 => le_trans h2 h⟩

/-- `n_1_analysis`: copies the session offline set, simulates the baseline
with that copy passed explicitly, then for every line not already offline
re-simulates with the line added; `impact = max(0, new - baseline)`;
results are sorted descending and the first 5 returned.  `none` models the
500 responses (data not loaded / baseline failed). -/
def n_1_analysis (rate : ℚ → ℚ → Line → Option ℚ)
    (master : Option (List Line)) (session : Finset String)
    (temp wind load_mult : ℚ) : Option (List Contingency) :=
  match master with
  | none => none
  | some lines =>
    let original_offline_lines := session
    match calculate_physics_state_internal rate (some lines) session
        temp wind load_mult (some original_offline_lines) with
    | none => none
    | some baseline_results =>
      let baseline_failure_count := (baseline_results.report.failure_count : ℤ)
      let contingency_results := lines.filterMap fun l =>
        if l.name ∈ original_offline_lines then none
        else
          match calculate_physics_state_internal rate (some lines) session
              temp wind load_mult (some (insert l.name original_offline_lines)) with
          | none => none
          | some sim =>
            some ⟨l.name,
              max 0 ((sim.report.failure_count : ℤ) - baseline_failure_count)⟩
      some ((contingency_results.insertionSort impactGE).take 5)

/-! ## app.py : `evaluate_remediation` (GA fitness function) -/

/-- `RemedialAction`: tagged variant for the `action_type` strings
`REROUTE` and `CURTAIL`. -/
inductive RemedialAction where
  | REROUTE (value : String)
  | CURTAIL (value : ℚ)
deriving DecidableEq, Repr

def COST_REROUTE_LINE : ℕ := 500

def COST_LOAD_CURTAIL : ℕ := 2000

/-- One iteration of the action-cost loop of `evaluate_remediation`:
state is `(current_cost, sim_load_mult, sim_offline_set)`. -/
def remediationStep (st : ℕ × ℚ × Finset String) (a : RemedialAction) :
    ℕ × ℚ × Finset String :=
  match a with
  | .REROUTE v =>
    if v ∈ st.2.2 then st
    else (st.1 + COST_REROUTE_LINE, st.2.1, insert v st.2.2)
  | .CURTAIL v => (st.1 + COST_LOAD_CURTAIL, st.2.1 - v, st.2.2)

/-- `evaluate_remediation`: folds the cost loop over the individual, runs
the simulation with the accumulated offline set and load multiplier, and
scores `failure_count * 1_000_000 + current_cost`, with `999` failures
when the simulation returns nothing. -/
def evaluate_remediation (rate : ℚ → ℚ → Line → Option ℚ)
    (master : Option (List Line)) (session : Finset String)
    (individual : List RemedialAction)
    (baseline_temp baseline_wind baseline_load : ℚ)
    (baseline_offline_set : Finset String) : ℕ :=
  let st := individual.foldl remediationStep (0, baseline_load, baseline_offline_set)
  let failure_count :=
    match calculate_physics_state_internal rate master session
        baseline_temp baseline_wind st.2.1 (some st.2.2) with
    | some sim_results => sim_results.report.failure_count
    | none => 999
  failure_count * 1000000 + st.1

/-! ## Derived views of an individual (for the fitness characterization) -/

/-- Targets of the `REROUTE` genes of an individual, in order. -/
def rerouteTargets : List RemedialAction → List String
  | [] => []
  | .REROUTE v :: as => v :: rerouteTargets as
  | .CURTAIL _ :: as => rerouteTargets as

/-- Step values of the `CURTAIL` genes of an individual, in order. -/
def curtailValues : List RemedialAction → List ℚ
  | [] => []
  | .REROUTE _ :: as => curtailValues as
  | .CURTAIL v :: as => v :: curtailValues as

/-! ## Concrete fixtures used by counterexamples and witnesses -/

/-- A rating oracle giving every line a rating of 1 MVA. -/
def rate1 : ℚ → ℚ → Line → Option ℚ := fun _ _ _ => some 1

/-- A rating oracle giving every line a rating of 0 MVA. -/
def rate0 : ℚ → ℚ → Line → Option ℚ := fun _ _ _ => some 0

/-- A rating oracle rating line `A` at 1 MVA and all others at 4 MVA. -/
def rateAB : ℚ → ℚ → Line → Option ℚ :=
  fun _ _ l => if l.name = "A" then some 1 else some 4

/-- Two disconnected lines at the same voltage level. -/
def masterTwo : List Line :=
  [⟨"A", "b1", "b2", 1, 2⟩, ⟨"B", "b3", "b4", 1, 3⟩]

/-- Two lines sharing bus `b2`, at the same voltage level. -/
def masterShared : List Line :=
  [⟨"A", "b1", "b2", 1, 2⟩, ⟨"B", "b2", "b3", 1, 1⟩]

/-- A single line. -/
def masterSingle : List Line := [⟨"A", "b1", "b2", 1, 2⟩]

/-- Output of the simulator on `masterTwo` with `rate1`, no offline lines,
`load_mult = 1`: both lines overloaded. -/
def simTwo : SimResult :=
  ⟨[⟨"A", "b1", "b2", 100, .overloaded, .red, 2, 1⟩,
    ⟨"B", "b3", "b4", 200, .overloaded, .red, 3, 1⟩],
   {"b3", "b4", "b1", "b2"},
   ⟨150, [⟨"B", "b3", "b4", 200, .overloaded, .red, 3, 1⟩,
          ⟨"A", "b1", "b2", 100, .overloaded, .red, 2, 1⟩], 2⟩⟩

/-- Output of the simulator on `masterShared` with `rateAB`, no offline
lines, `load_mult = 1`: `A` overloaded, `B` ok but colored orange. -/
def simShared : SimResult :=
  ⟨[⟨"A", "b1", "b2", 100, .overloaded, .red, 2, 1⟩,
    ⟨"B", "b2", "b3", -75, .ok, .orange, 1, 4⟩],
   {"b1", "b2"},
   ⟨50, [⟨"A", "b1", "b2", 100, .overloaded, .red, 2, 1⟩], 1⟩⟩

/-- Output of the simulator on `masterSingle` with `rate0`, no offline
lines, `load_mult = 1`: zero rating, zero loading. -/
def simSingle0 : SimResult :=
  ⟨[⟨"A", "b1", "b2", 0, .stressed, .green, 2, 0⟩], ∅, ⟨0, [], 0⟩⟩

/-- Conductor parameters with `Emissivity = Absorptivity = 2`, outside
`[0, 1]`, everything else plausible. -/
def pOutOfRange : ConductorParams :=
  ⟨25, 2, 90, 1000, 27, 12, 2, 2, .EastWest, .Clear, 50, 1, 25, 1 / 10000,
    50, 1 / 10000, 1⟩

/-- Conductor parameters with every field in the validated range. -/
def pValid : ConductorParams :=
  ⟨25, 2, 90, 1000, 27, 12, 8 / 10, 8 / 10, .EastWest, .Clear, 50, 1, 25,
    1 / 10000, 50, 1 / 10000, 1⟩

/-- The record produced for line `B` in `simShared`. -/
def resultB : LineResult := ⟨"B", "b2", "b3", -75, .ok, .orange, 1, 4⟩

/-! ## Helper lemmas -/

theorem finalColor_name (b : Finset String) (r : LineResult) :
    (finalColor b r).name = r.name := by
  unfold finalColor; split_ifs <;> rfl

theorem finalColor_bus0 (b : Finset String) (r : LineResult) :
    (finalColor b r).bus0 = r.bus0 := by
  unfold finalColor; split_ifs <;> rfl

theorem finalColor_bus1 (b : Finset String) (r : LineResult) :
    (finalColor b r).bus1 = r.bus1 := by
  unfold finalColor; split_ifs <;> rfl

theorem finalColor_loading (b : Finset String) (r : LineResult) :
    (finalColor b r).loading = r.loading := by
  unfold finalColor; split_ifs <;> rfl

theorem finalColor_initial_status (b : Finset String) (r : LineResult) :
    (finalColor b r).initial_status = r.initial_status := by
  unfold finalColor; split_ifs <;> rfl

theorem finalColor_rating_mva (b : Finset String) (r : LineResult) :
    (finalColor b r).rating_mva = r.rating_mva := by
  unfold finalColor; split_ifs <;> rfl

theorem line_results_eq (rate : ℚ → ℚ → Line → Option ℚ) (lines : List Line)
    (session : Finset String) (temp wind load_mult : ℚ)
    (forced : Option (Finset String)) (res : SimResult)
    (hres : calculate_physics_state_internal rate (some lines) session temp wind
      load_mult forced = some res) :
    res.line_results = simLineResults rate lines (forced.getD session) temp wind load_mult := by
  unfold calculate_physics_state_internal at hres
  simp only [Option.some.injEq] at hres
  subst hres
  rfl

theorem bus_results_eq (rate : ℚ → ℚ → Line → Option ℚ) (lines : List Line)
    (session : Finset String) (temp wind load_mult : ℚ)
    (forced : Option (Finset String)) (res : SimResult)
    (hres : calculate_physics_state_internal rate (some lines) session temp wind
      load_mult forced = some res) :
    res.bus_results =
      overloadedBuses (simRaw rate lines (forced.getD session) temp wind load_mult) := by
  unfold calculate_physics_state_internal at hres
  simp only [Option.some.injEq] at hres
  subst hres
  rfl

theorem mem_simLineResults (rate : ℚ → ℚ → Line → Option ℚ) (lines : List Line)
    (S : Finset String) (temp wind load_mult : ℚ) (r : LineResult)
    (hr : r ∈ simLineResults rate lines S temp wind load_mult) :
    ∃ l ∈ lines,
      r = finalColor (overloadedBuses (simRaw rate lines S temp wind load_mult))
        (processLine rate temp wind load_mult S
          (fun v => sumP0At (offline_lines_df lines S) v * load_mult)
          (fun v => sumP0At (active_lines lines S) v) l) := by
  unfold simLineResults at hr
  rw [List.mem_map] at hr
  obtain ⟨x, hx, rfl⟩ := hr
  unfold simRaw at hx
  rw [List.mem_map] at hx
  obtain ⟨l, hl, rfl⟩ := hx
  exact ⟨l, hl, rfl⟩

theorem line_status_cases (x : ℚ) :
    line_status x = .overloaded ∨ line_status x = .stressed ∨ line_status x = .ok := by
  unfold line_status
  split_ifs <;> simp

theorem line_status_spec (x : ℚ) :
    (line_status x = .overloaded ↔ 0 < x) ∧
    (line_status x = .stressed ↔ (-15 < x ∧ x ≤ 0)) ∧
    (line_status x = .ok ↔ x ≤ -15) := by
  unfold line_status
  split_ifs with h1 h2
  · refine ⟨by simp [h1], ?_, ?_⟩
    · simp only [reduceCtorEq, false_iff]
      intro hc
      linarith
    · simp only [reduceCtorEq, false_iff]
      intro hc
      linarith
  · refine ⟨?_, ?_, ?_⟩
    · simp only [reduceCtorEq, false_iff]
      intro hc
      linarith
    · simp only [true_iff]
      constructor <;> linarith
    · simp only [reduceCtorEq, false_iff]
      intro hc
      linarith
  · refine ⟨?_, ?_, ?_⟩
    · simp only [reduceCtorEq, false_iff]
      intro hc
      linarith
    · simp only [reduceCtorEq, false_iff]
      rintro ⟨hc, _⟩
      linarith
    · simp only [true_iff]
      linarith

theorem processLine_status_spec (rate : ℚ → ℚ → Line → Option ℚ)
    (temp wind load_mult : ℚ) (S : Finset String) (oL aN : ℚ → ℚ) (l : Line)
    (hoff : (processLine rate temp wind load_mult S oL aN l).initial_status ≠ .offline)
    (herr : (processLine rate temp wind load_mult S oL aN l).initial_status ≠ .error) :
    ((processLine rate temp wind load_mult S oL aN l).initial_status = .overloaded ↔
      0 < (processLine rate temp wind load_mult S oL aN l).loading) ∧
    ((processLine rate temp wind load_mult S oL aN l).initial_status = .stressed ↔
      (-15 < (processLine rate temp wind load_mult S oL aN l).loading ∧
        (processLine rate temp wind load_mult S oL aN l).loading ≤ 0)) ∧
    ((processLine rate temp wind load_mult S oL aN l).initial_status = .ok ↔
      (processLine rate temp wind load_mult S oL aN l).loading ≤ -15) := by
  unfold processLine at *
  split_ifs at *
  · exact absurd rfl hoff
  · cases hrate : rate temp wind l with
    | none =>
      rw [hrate] at herr
      exact absurd rfl herr
    | some rating =>
      dsimp only at hoff herr ⊢
      exact line_status_spec _

theorem mem_foldl_overloadedBuses (rs : List LineResult) (acc : Finset String)
    (b : String) :
    (b ∈ rs.foldl
        (fun s r =>
          if r.initial_status = .overloaded then insert r.bus0 (insert r.bus1 s) else s)
        acc) ↔
      b ∈ acc ∨ ∃ r ∈ rs, r.initial_status = .overloaded ∧ (r.bus0 = b ∨ r.bus1 = b) := by
  induction rs generalizing acc with
  | nil => simp
  | cons r rs ih =>
    simp only [List.foldl_cons]
    rw [ih]
    by_cases h : r.initial_status = .overloaded
    · rw [if_pos h]
      simp only [Finset.mem_insert, List.mem_cons]
      constructor
      · rintro ((rfl | rfl | hb) | ⟨x, hx, hov, hbus⟩)
        · exact Or.inr ⟨r, Or.inl rfl, h, Or.inl rfl⟩
        · exact Or.inr ⟨r, Or.inl rfl, h, Or.inr rfl⟩
        · exact Or.inl hb
        · exact Or.inr ⟨x, Or.inr hx, hov, hbus⟩
      · rintro (hb | ⟨x, (rfl | hx), hov, hbus⟩)
        · exact Or.inl (Or.inr (Or.inr hb))
        · rcases hbus with rfl | rfl
          · exact Or.inl (Or.inl rfl)
          · exact Or.inl (Or.inr (Or.inl rfl))
        · exact Or.inr ⟨x, hx, hov, hbus⟩
    · rw [if_neg h]
      simp only [List.mem_cons]
      constructor
      · rintro (hb | ⟨x, hx, hov, hbus⟩)
        · exact Or.inl hb
        · exact Or.inr ⟨x, Or.inr hx, hov, hbus⟩
      · rintro (hb | ⟨x, (rfl | hx), hov, hbus⟩)
        · exact Or.inl hb
        · exact absurd hov h
        · exact Or.inr ⟨x, hx, hov, hbus⟩

theorem mem_overloadedBuses (rs : List LineResult) (b : String) :
    b ∈ overloadedBuses rs ↔
      ∃ r ∈ rs, r.initial_status = .overloaded ∧ (r.bus0 = b ∨ r.bus1 = b) := by
  unfold overloadedBuses
  rw [mem_foldl_overloadedBuses]
  simp

theorem exists_map_finalColor (raw : List LineResult) (buses : Finset String)
    (b : String) :
    (∃ r ∈ raw.map (finalColor buses),
        r.initial_status = .overloaded ∧ (r.bus0 = b ∨ r.bus1 = b)) ↔
      ∃ r ∈ raw, r.initial_status = .overloaded ∧ (r.bus0 = b ∨ r.bus1 = b) := by
  simp only [List.mem_map]
  constructor
  · rintro ⟨r, ⟨x, hx, rfl⟩, hst, hb⟩
    rw [finalColor_initial_status] at hst
    rw [finalColor_bus0, finalColor_bus1] at hb
    exact ⟨x, hx, hst, hb⟩
  · rintro ⟨x, hx, hst, hb⟩
    refine ⟨finalColor buses x, ⟨x, hx, rfl⟩, ?_, ?_⟩
    · rwa [finalColor_initial_status]
    · rwa [finalColor_bus0, finalColor_bus1]

theorem finalColor_color_spec (buses : Finset String)
    (rate : ℚ → ℚ → Line → Option ℚ) (temp wind load_mult : ℚ) (S : Finset String)
    (oL aN : ℚ → ℚ) (l : Line) :
    (finalColor buses (processLine rate temp wind load_mult S oL aN l)).final_color =
      (if (processLine rate temp wind load_mult S oL aN l).initial_status = .offline then
        Color.black
      else if (processLine rate temp wind load_mult S oL aN l).initial_status = .overloaded then
        Color.red
      else if (processLine rate temp wind load_mult S oL aN l).bus0 ∈ buses ∨
          (processLine rate temp wind load_mult S oL aN l).bus1 ∈ buses then
        Color.orange
      else Color.green) := by
  by_cases hmem : l.name ∈ S
  · simp [processLine, hmem, finalColor]
  · cases hrate : rate temp wind l with
    | none =>
      by_cases hb : l.bus0 ∈ buses ∨ l.bus1 ∈ buses <;>
        simp [processLine, hmem, hrate, finalColor, hb]
    | some rating =>
      rcases line_status_cases (line_loading (line_current l load_mult oL aN) rating) with
        hst | hst | hst <;>
        by_cases hb : l.bus0 ∈ buses ∨ l.bus1 ∈ buses <;>
        simp [processLine, hmem, hrate, finalColor, hst, hb]

theorem processLine_loading_zero_of_rating_nonpos (rate : ℚ → ℚ → Line → Option ℚ)
    (temp wind load_mult : ℚ) (S : Finset String) (oL aN : ℚ → ℚ) (l : Line)
    (h : (processLine rate temp wind load_mult S oL aN l).rating_mva ≤ 0) :
    (processLine rate temp wind load_mult S oL aN l).loading = 0 := by
  unfold processLine at h ⊢
  split_ifs at h ⊢
  · rfl
  · cases hrate : rate temp wind l with
    | none =>
      rw [hrate] at h
    | some rating =>
      rw [hrate] at h
      dsimp only at h ⊢
      unfold line_loading
      rw [if_neg (not_lt.mpr h)]

theorem no_failures_of_no_active (rate : ℚ → ℚ → Line → Option ℚ)
    (lines : List Line) (S : Finset String) (temp wind load_mult : ℚ)
    (hact : active_lines lines S = []) :
    (simLineResults rate lines S temp wind load_mult).filter
      (fun r => decide (r.initial_status = .overloaded)) = [] := by
  rw [List.filter_eq_nil_iff]
  intro r hr
  obtain ⟨l, hl, rfl⟩ := mem_simLineResults _ _ _ _ _ _ _ hr
  have hmem : l.name ∈ S := by
    by_contra hnot
    have hmemact : l ∈ active_lines lines S := by
      unfold active_lines
      rw [List.mem_filter]
      exact ⟨hl, by simpa using hnot⟩
    rw [hact] at hmemact
    exact absurd hmemact (List.not_mem_nil l)
  rw [finalColor_initial_status]
  unfold processLine
  rw [if_pos hmem]
  simp

theorem card_insert_sdiff (v : String) (T S : Finset String) (hv : v ∉ S) :
    (insert v T \ S).card = (T \ insert v S).card + 1 := by
  have h1 : insert v T \ S = insert v (T \ insert v S) := by
    ext x
    simp only [Finset.mem_sdiff, Finset.mem_insert, not_or]
    constructor
    · rintro ⟨rfl | hxT, hxS⟩
      · exact Or.inl rfl
      · by_cases hxv : x = v
        · exact Or.inl hxv
        · exact Or.inr ⟨hxT, hxv, hxS⟩
    · rintro (rfl | ⟨hxT, hxv, hxS⟩)
      · exact ⟨Or.inl rfl, hv⟩
      · exact ⟨Or.inr hxT, hxS⟩
  rw [h1, Finset.card_insert_of_not_mem]
  simp [Finset.mem_sdiff]

theorem foldl_remediationStep (as : List RemedialAction) (cost : ℕ) (load : ℚ)
    (S : Finset String) :
    as.foldl remediationStep (cost, load, S) =
      (cost + ((rerouteTargets as).toFinset \ S).card * COST_REROUTE_LINE +
          (curtailValues as).length * COST_LOAD_CURTAIL,
        load - (curtailValues as).sum,
        S ∪ (rerouteTargets as).toFinset) := by
  induction as generalizing cost load S with
  | nil => simp [rerouteTargets, curtailValues]
  | cons a as ih =>
    cases a with
    | REROUTE v =>
      simp only [List.foldl_cons, remediationStep, rerouteTargets, curtailValues,
        List.toFinset_cons]
      by_cases hv : v ∈ S
      · rw [if_pos hv, ih]
        have hsd : insert v (rerouteTargets as).toFinset \ S =
            (rerouteTargets as).toFinset \ S := by
          ext x
          simp only [Finset.mem_sdiff, Finset.mem_insert]
          constructor
          · rintro ⟨rfl | hxT, hxS⟩
            · exact absurd hv hxS
            · exact ⟨hxT, hxS⟩
          · rintro ⟨hxT, hxS⟩
            exact ⟨Or.inr hxT, hxS⟩
        have hun : S ∪ insert v (rerouteTargets as).toFinset =
            S ∪ (rerouteTargets as).toFinset := by
          ext x
          simp only [Finset.mem_union, Finset.mem_insert]
          constructor
          · rintro (hxS | rfl | hxT)
            · exact Or.inl hxS
            · exact Or.inl hv
            · exact Or.inr hxT
          · rintro (hxS | hxT)
            · exact Or.inl hxS
            · exact Or.inr (Or.inr hxT)
        rw [hsd, hun]
      · rw [if_neg hv, ih]
        have hcard := card_insert_sdiff v (rerouteTargets as).toFinset S hv
        have hun : insert v S ∪ (rerouteTargets as).toFinset =
            S ∪ insert v (rerouteTargets as).toFinset := by
          ext x
          simp only [Finset.mem_union, Finset.mem_insert]
          tauto
        rw [hun, hcard]
        refine Prod.ext ?_ rfl
        show cost + COST_REROUTE_LINE +
            ((rerouteTargets as).toFinset \ insert v S).card * COST_REROUTE_LINE +
            (curtailValues as).length * COST_LOAD_CURTAIL =
          cost + (((rerouteTargets as).toFinset \ insert v S).card + 1) * COST_REROUTE_LINE +
            (curtailValues as).length * COST_LOAD_CURTAIL
        ring
    | CURTAIL v =>
      simp only [List.foldl_cons, remediationStep, rerouteTargets, curtailValues]
      rw [ih]
      refine Prod.ext ?_ (Prod.ext ?_ rfl)
      · show cost + COST_LOAD_CURTAIL +
            ((rerouteTargets as).toFinset \ S).card * COST_REROUTE_LINE +
            (curtailValues as).length * COST_LOAD_CURTAIL =
          cost + ((rerouteTargets as).toFinset \ S).card * COST_REROUTE_LINE +
            ((curtailValues as).length + 1) * COST_LOAD_CURTAIL
        ring
      · show load - v - (curtailValues as).sum = load - (v + (curtailValues as).sum)
        ring

/-! ## C7 -/

/-- C7, confirmed: the fitness score of an individual equals
`failure_count * 1_000_000 + cost`, where the failure count comes from
simulating with the baseline offline set united with the rerouted lines of
the individual and the load multiplier reduced by the sum of its curtail
steps (999 if that simulation yields nothing), and the cost is the number
of distinct rerouted lines not already in the baseline times
`COST_REROUTE_LINE` plus the number of curtail genes times
`COST_LOAD_CURTAIL`. -/
theorem C7_fitness_score (rate : ℚ → ℚ → Line → Option ℚ)
    (master : Option (List Line)) (session : Finset String)
    (individual : List RemedialAction)
    (baseline_temp baseline_wind baseline_load : ℚ)
    (baseline_offline_set : Finset String) :
    evaluate_remediation rate master session individual baseline_temp baseline_wind
        baseline_load baseline_offline_set =
      (match calculate_physics_state_internal rate master session baseline_temp
          baseline_wind (baseline_load - (curtailValues individual).sum)
          (some (baseline_offline_set ∪ (rerouteTargets individual).toFinset)) with
        | some sim_results => sim_results.report.failure_count
        | none => 999) * 1000000 +
        (((rerouteTargets individual).toFinset \ baseline_offline_set).card *
            COST_REROUTE_LINE +
          (curtailValues individual).length * COST_LOAD_CURTAIL) := by
  unfold evaluate_remediation
  rw [foldl_remediationStep]
  simp

/-! ## C8 -/

/-- C8, confirmed: whenever the N-1 analysis returns a list, the list has
at most 5 entries, is sorted non-increasing by impact, every reported
impact is `max 0 (new - baseline)` and hence non-negative, and every entry
names a line not already in the session (baseline) offline set; the
session set itself is only copied, never written (in this embedding the
analysis takes it as a plain value and returns only the ranking). -/
theorem C8_n1_properties (rate : ℚ → ℚ → Line → Option ℚ)
    (master : Option (List Line)) (session : Finset String)
    (temp wind load_mult : ℚ) (out : List Contingency) (e : Contingency)
    (hout : n_1_analysis rate master session temp wind load_mult = some out)
    (he : e ∈ out) :
    out.length ≤ 5 ∧ List.Sorted impactGE out ∧ 0 ≤ e.failures_caused ∧
      e.line_name ∉ session := by
  cases master with
  | none => exact absurd hout (by simp [n_1_analysis])
  | some lines =>
    unfold n_1_analysis at hout
    dsimp only at hout
    obtain ⟨base, hbase⟩ : ∃ res,
        calculate_physics_state_internal rate (some lines) session temp wind load_mult
          (some session) = some res := ⟨_, rfl⟩
    rw [hbase] at hout
    simp only [Option.some.injEq] at hout
    subst hout
    refine ⟨?_, ?_, ?_, ?_⟩
    · rw [List.length_take]
      exact min_le_left 5 _
    · exact List.Pairwise.sublist (List.take_sublist 5 _)
        (List.sorted_insertionSort impactGE _)
    · have he2 : e ∈ (lines.filterMap fun l =>
          if l.name ∈ session then none
          else
            match calculate_physics_state_internal rate (some lines) session
                temp wind load_mult (some (insert l.name session)) with
            | none => none
            | some sim =>
              some ⟨l.name,
                max 0 ((sim.report.failure_count : ℤ) - (base.report.failure_count : ℤ))⟩) := by
        have := (List.take_sublist 5
          ((lines.filterMap _).insertionSort impactGE)).mem he
        exact ((List.perm_insertionSort impactGE _).mem_iff).mp this
      rw [List.mem_filterMap] at he2
      obtain ⟨l, _, hl⟩ := he2
      by_cases hmem : l.name ∈ session
      · rw [if_pos hmem] at hl
        exact absurd hl (by simp)
      · rw [if_neg hmem] at hl
        obtain ⟨sim, hsim⟩ : ∃ res,
            calculate_physics_state_internal rate (some lines) session temp wind
              load_mult (some (insert l.name session)) = some res := ⟨_, rfl⟩
        rw [hsim] at hl
        simp only [Option.some.injEq] at hl
        subst hl
        exact le_max_left 0 _
    · have he2 : e ∈ (lines.filterMap fun l =>
          if l.name ∈ session then none
          else
            match calculate_physics_state_internal rate (some lines) session
                temp wind load_mult (some (insert l.name session)) with
            | none => none
            | some sim =>
              some ⟨l.name,
                max 0 ((sim.report.failure_count : ℤ) - (base.report.failure_count : ℤ))⟩) := by
        have := (List.take_sublist 5
          ((lines.filterMap _).insertionSort impactGE)).mem he
        exact ((List.perm_insertionSort impactGE _).mem_iff).mp this
      rw [List.mem_filterMap] at he2
      obtain ⟨l, _, hl⟩ := he2
      by_cases hmem : l.name ∈ session
      · rw [if_pos hmem] at hl
        exact absurd hl (by simp)
      · rw [if_neg hmem] at hl
        obtain ⟨sim, hsim⟩ : ∃ res,
            calculate_physics_state_internal rate (some lines) session temp wind
              load_mult (some (insert l.name session)) = some res := ⟨_, rfl⟩
        rw [hsim] at hl
        simp only [Option.some.injEq] at hl
        subst hl
        exact hmem

/-- Witness for `C8_n1_properties` on the `masterTwo` run: both single-line
outages reduce the failure count, so both impacts clamp to 0. -/
theorem C8_n1_properties_witness :
    n_1_analysis rate1 (some masterTwo) ∅ 25 2 1 =
      some [⟨"A", 0⟩, ⟨"B", 0⟩] ∧
    (⟨"A", 0⟩ : Contingency) ∈ ([⟨"A", 0⟩, ⟨"B", 0⟩] : List Contingency) ∧
    (([⟨"A", 0⟩, ⟨"B", 0⟩] : List Contingency).length ≤ 5 ∧
      List.Sorted impactGE [⟨"A", 0⟩, ⟨"B", 0⟩] ∧
      0 ≤ (⟨"A", 0⟩ : Contingency).failures_caused ∧
      (⟨"A", 0⟩ : Contingency).line_name ∉ (∅ : Finset String)) := by
  have h1 : n_1_analysis rate1 (some masterTwo) ∅ 25 2 1 =
      some [⟨"A", 0⟩, ⟨"B", 0⟩] := by
    norm_num +decide [n_1_analysis, calculate_physics_state_internal, simLineResults,
      simRaw, active_lines, offline_lines_df, masterTwo, rate1, processLine,
      line_current, line_loading, line_status, overloadedBuses, finalColor, sumP0At,
      List.insertionSort, List.orderedInsert, loadingGE, impactGE]
  have h2 : (⟨"A", 0⟩ : Contingency) ∈ ([⟨"A", 0⟩, ⟨"B", 0⟩] : List Contingency) := by
    simp
  exact ⟨h1, h2, C8_n1_properties _ _ _ _ _ _ _ _ h1 h2⟩

/-! ## C4 -/

set_option maxHeartbeats 1600000 in
/-- C4, corrected: the thermal rating computation raises exactly when a
reference resistance exceeds 0.001 ohms/ft, absorptivity is negative,
emissivity is negative (the code checks no upper bound, so emissivity or
absorptivity above 1 is accepted, `C4_counterexample`; a missing
declared-required field cannot occur for a constructed parameter set),
the two reference temperatures coincide (`ZeroDivisionError` in the
resistance interpolation of `get_res_Tc`), solar heat gain is exactly
zero, radiated heat loss is exactly zero, or — with a non-negative
radicand `qc + qr - qs` — the interpolated resistance is zero
(`ZeroDivisionError`) or the quotient `(qc + qr - qs) / rTc` is negative
(`math.sqrt` domain `ValueError`).  In all remaining cases it returns a
rating, and a negative radicand yields the rating 0 rather than an
error. -/
theorem C4_rating_error_conditions (sq : ℚ → ℚ) (p : ConductorParams) (qc qs : ℚ) :
    ((steady_state_thermal_rating sq p qc qs).isOk = false ↔
      (1 / 1000 < p.RLo ∨ 1 / 1000 < p.RHi ∨ p.Absorptivity < 0 ∨ p.Emissivity < 0 ∨
        p.THi - p.TLo = 0 ∨ qs = 0 ∨ radiated_heat_loss p (clampTc p) = 0 ∨
        (0 ≤ qc + radiated_heat_loss p (clampTc p) - qs ∧
          (res_Tc_formula p (clampTc p) = 0 ∨
            (qc + radiated_heat_loss p (clampTc p) - qs) /
              res_Tc_formula p (clampTc p) < 0)))) ∧
    ((steady_state_thermal_rating sq p qc qs).isOk = true →
      qc + radiated_heat_loss p (clampTc p) - qs < 0 →
      steady_state_thermal_rating sq p qc qs = .ok 0) := by
  unfold steady_state_thermal_rating input_validation get_res_Tc
  split_ifs <;> simp_all [Except.isOk, Except.toBool]
  by_cases hqr : radiated_heat_loss p (clampTc p) = 0 <;> simp_all
  by_cases hrad : qc + radiated_heat_loss p (clampTc p) < qs <;> simp_all
  rw [if_neg (not_lt.mpr hrad)]
  by_cases hrt : res_Tc_formula p (clampTc p) = 0 <;> simp_all
  by_cases hq : (qc + radiated_heat_loss p (clampTc p) - qs) /
      res_Tc_formula p (clampTc p) < 0 <;> simp_all
  rw [if_neg (not_lt.mpr hq)]
  simp_all

/-- C4, counterexample to the claim as stated: emissivity and absorptivity
equal to 2 are outside `[0, 1]`, yet the computation succeeds — the code
validates only the lower bound 0. -/
theorem C4_counterexample :
    (steady_state_thermal_rating id pOutOfRange 5 1).isOk = true ∧
    1 < pOutOfRange.Emissivity ∧ 1 < pOutOfRange.Absorptivity := by
  refine ⟨?_, by norm_num [pOutOfRange], by norm_num [pOutOfRange]⟩
  norm_num [steady_state_thermal_rating, input_validation, pOutOfRange, clampTc,
    radiated_heat_loss, get_res_Tc, res_Tc_formula, Except.isOk, Except.toBool]

/-- Witness for `C4_rating_error_conditions`: valid parameters with
`qc = 0`, `qs = 10`, so the radicand is negative and the clamped rating 0
is returned. -/
theorem C4_rating_error_conditions_witness :
    (steady_state_thermal_rating id pValid 0 10).isOk = true ∧
    (0 : ℚ) + radiated_heat_loss pValid (clampTc pValid) - 10 < 0 ∧
    steady_state_thermal_rating id pValid 0 10 = .ok 0 := by
  have h1 : (steady_state_thermal_rating id pValid 0 10).isOk = true := by
    norm_num [steady_state_thermal_rating, input_validation, pValid, clampTc,
      radiated_heat_loss, get_res_Tc, res_Tc_formula, Except.isOk, Except.toBool]
  have h2 : (0 : ℚ) + radiated_heat_loss pValid (clampTc pValid) - 10 < 0 := by
    norm_num [pValid, clampTc, radiated_heat_loss]
  exact ⟨h1, h2, (C4_rating_error_conditions id pValid 0 10).2 h1 h2⟩

/-! ## C1 -/

/-- C1, corrected: the overall stress score is the SUM of the loading
percentages of the overloaded lines divided by the number of active lines
(0 when there are no active lines) — not the MEAN over overloaded lines
divided by the active count, which `C1_counterexample` refutes. -/
theorem C1_stress_is_sum_over_active (rate : ℚ → ℚ → Line → Option ℚ)
    (lines : List Line) (session : Finset String) (temp wind load_mult : ℚ)
    (forced : Option (Finset String)) (res : SimResult)
    (hres : calculate_physics_state_internal rate (some lines) session temp wind
      load_mult forced = some res) :
    res.report.overall_stress =
      (if 0 < (active_lines lines (forced.getD session)).length then
        ((res.line_results.filter fun r => decide (r.initial_status = .overloaded)).map
            LineResult.loading).sum /
          (active_lines lines (forced.getD session)).length
      else 0) := by
  unfold calculate_physics_state_internal at hres
  simp only [Option.some.injEq] at hres
  subst hres
  dsimp only
  by_cases hc : 0 < (active_lines lines (forced.getD session)).length
  · rw [if_pos hc, if_pos hc]
  · rw [if_neg hc, if_neg hc]
    have hact : active_lines lines (forced.getD session) = [] := by
      cases h : active_lines lines (forced.getD session) with
      | nil => rfl
      | cons a as =>
        exfalso
        exact hc (by rw [h]; simp)
    rw [no_failures_of_no_active rate lines _ temp wind load_mult hact]
    simp

/-- C1, counterexample to the claim as stated: on `masterTwo` both lines
are overloaded with loadings 100 and 200; the code reports
`(100 + 200) / 2 = 150`, while the claimed mean-then-normalize formula
gives `((100 + 200) / 2) / 2 = 75`. -/
theorem C1_counterexample :
    (calculate_physics_state_internal rate1 (some masterTwo) ∅ 25 2 1 (some ∅)).map
        (fun res => res.report.overall_stress) = some 150 ∧
    (calculate_physics_state_internal rate1 (some masterTwo) ∅ 25 2 1 (some ∅)).map
        (fun res =>
          ((res.report.top_failures.map LineResult.loading).sum /
              (res.report.top_failures.length : ℚ)) /
            ((active_lines masterTwo ∅).length : ℚ)) = some 75 ∧
    (150 : ℚ) ≠ 75 := by
  refine ⟨?_, ?_, by norm_num⟩ <;>
    norm_num +decide [calculate_physics_state_internal, simLineResults, simRaw,
      active_lines, offline_lines_df, masterTwo, rate1, processLine, line_current,
      line_loading, line_status, overloadedBuses, finalColor, sumP0At,
      List.insertionSort, List.orderedInsert, loadingGE]

/-- Witness for `C1_stress_is_sum_over_active` on the `masterTwo` run. -/
theorem C1_stress_is_sum_over_active_witness :
    calculate_physics_state_internal rate1 (some masterTwo) ∅ 25 2 1 (some ∅) =
      some simTwo ∧
    simTwo.report.overall_stress =
      (if 0 < (active_lines masterTwo ((some ∅ : Option (Finset String)).getD ∅)).length then
        ((simTwo.line_results.filter fun r => decide (r.initial_status = .overloaded)).map
            LineResult.loading).sum /
          (active_lines masterTwo ((some ∅ : Option (Finset String)).getD ∅)).length
      else 0) := by
  have h1 : calculate_physics_state_internal rate1 (some masterTwo) ∅ 25 2 1 (some ∅) =
      some simTwo := by
    norm_num +decide [calculate_physics_state_internal, simLineResults, simRaw,
      active_lines, offline_lines_df, masterTwo, rate1, processLine, line_current,
      line_loading, line_status, overloadedBuses, finalColor, sumP0At,
      List.insertionSort, List.orderedInsert, loadingGE, simTwo]
  exact ⟨h1, C1_stress_is_sum_over_active _ _ _ _ _ _ _ _ h1⟩

/-! ## C6 -/

/-- C6, confirmed: every line of every report carries exactly one of the
five statuses (the classification is exhaustive and mutually exclusive),
and for an active line whose physics evaluation succeeded — status neither
`offline` nor `error` — the status is `overloaded` iff `loading > 0`,
`stressed` iff `-15 < loading ≤ 0`, and `ok` iff `loading ≤ -15`. -/
theorem C6_status_partition (rate : ℚ → ℚ → Line → Option ℚ) (lines : List Line)
    (session : Finset String) (temp wind load_mult : ℚ)
    (forced : Option (Finset String)) (res : SimResult)
    (hres : calculate_physics_state_internal rate (some lines) session temp wind
      load_mult forced = some res)
    (r : LineResult) (hr : r ∈ res.line_results) :
    (r.initial_status = .ok ∨ r.initial_status = .stressed ∨
      r.initial_status = .overloaded ∨ r.initial_status = .offline ∨
      r.initial_status = .error) ∧
    (r.initial_status ≠ .offline → r.initial_status ≠ .error →
      ((r.initial_status = .overloaded ↔ 0 < r.loading) ∧
       (r.initial_status = .stressed ↔ (-15 < r.loading ∧ r.loading ≤ 0)) ∧
       (r.initial_status = .ok ↔ r.loading ≤ -15))) := by
  constructor
  · cases r.initial_status <;> tauto
  · intro hoff herr
    rw [line_results_eq rate lines session temp wind load_mult forced res hres] at hr
    obtain ⟨l, hl, rfl⟩ := mem_simLineResults _ _ _ _ _ _ _ hr
    rw [finalColor_initial_status] at hoff herr ⊢
    rw [finalColor_loading]
    exact processLine_status_spec _ _ _ _ _ _ _ _ hoff herr

/-- Witness for `C6_status_partition`: the `ok` line `B` of the
`masterShared` run, with loading −75. -/
theorem C6_status_partition_witness :
    calculate_physics_state_internal rateAB (some masterShared) ∅ 25 2 1 (some ∅) =
      some simShared ∧
    resultB ∈ simShared.line_results ∧
    resultB.initial_status ≠ .offline ∧
    resultB.initial_status ≠ .error ∧
    (resultB.initial_status = .overloaded ↔ 0 < resultB.loading) ∧
    (resultB.initial_status = .stressed ↔ (-15 < resultB.loading ∧ resultB.loading ≤ 0)) ∧
    (resultB.initial_status = .ok ↔ resultB.loading ≤ -15) := by
  have h1 : calculate_physics_state_internal rateAB (some masterShared) ∅ 25 2 1 (some ∅) =
      some simShared := by
    norm_num +decide [calculate_physics_state_internal, simLineResults, simRaw,
      active_lines, offline_lines_df, masterShared, rateAB, processLine, line_current,
      line_loading, line_status, overloadedBuses, finalColor, sumP0At,
      List.insertionSort, List.orderedInsert, loadingGE, simShared]
  have h2 : resultB ∈ simShared.line_results := by simp [simShared, resultB]
  have h3 : resultB.initial_status ≠ .offline := by decide
  have h4 : resultB.initial_status ≠ .error := by decide
  have h5 := (C6_status_partition _ _ _ _ _ _ _ _ h1 _ h2).2 h3 h4
  exact ⟨h1, h2, h3, h4, h5.1, h5.2.1, h5.2.2⟩

/-! ## C5 -/

/-- C5, corrected: `bus_results` is exactly the set of buses touching an
overloaded line, and every line is colored by the rule: `offline` lines
are black, `overloaded` lines red, any other line touching an overloaded
bus orange — regardless of its own status, including `ok` and `error`
lines (this is where the original claim fails, see `C5_counterexample`) —
and every remaining line green (so an `error` line away from overloaded
buses is recolored green, not kept gray). -/
theorem C5_color_rule (rate : ℚ → ℚ → Line → Option ℚ) (lines : List Line)
    (session : Finset String) (temp wind load_mult : ℚ)
    (forced : Option (Finset String)) (res : SimResult) (b : String) (r : LineResult)
    (hres : calculate_physics_state_internal rate (some lines) session temp wind
      load_mult forced = some res)
    (hr : r ∈ res.line_results) :
    (b ∈ res.bus_results ↔
      ∃ x ∈ res.line_results,
        x.initial_status = .overloaded ∧ (x.bus0 = b ∨ x.bus1 = b)) ∧
    r.final_color =
      (if r.initial_status = .offline then Color.black
      else if r.initial_status = .overloaded then Color.red
      else if r.bus0 ∈ res.bus_results ∨ r.bus1 ∈ res.bus_results then Color.orange
      else Color.green) := by
  have hlr := line_results_eq rate lines session temp wind load_mult forced res hres
  have hbus := bus_results_eq rate lines session temp wind load_mult forced res hres
  constructor
  · rw [hlr, hbus]
    unfold simLineResults
    rw [mem_overloadedBuses, exists_map_finalColor]
  · rw [hlr] at hr
    obtain ⟨l, hl, rfl⟩ := mem_simLineResults _ _ _ _ _ _ _ hr
    rw [hbus, finalColor_initial_status, finalColor_bus0, finalColor_bus1]
    exact finalColor_color_spec _ _ _ _ _ _ _ _ _

/-- C5, counterexample to the claim as stated: on `masterShared` line `A`
is overloaded and line `B` — status `ok`, sharing bus `b2` with `A` — is
colored orange, while the claim requires `ok` lines touching an overloaded
bus to keep their default green coloring. -/
theorem C5_counterexample :
    (calculate_physics_state_internal rateAB (some masterShared) ∅ 25 2 1 (some ∅)).map
        (fun res => res.line_results.map fun r => (r.initial_status, r.final_color)) =
      some [(.overloaded, .red), (.ok, .orange)] ∧
    Color.orange ≠ Color.green := by
  constructor
  · norm_num +decide [calculate_physics_state_internal, simLineResults, simRaw,
      active_lines, offline_lines_df, masterShared, rateAB, processLine, line_current,
      line_loading, line_status, overloadedBuses, finalColor, sumP0At,
      List.insertionSort, List.orderedInsert, loadingGE]
  · decide

/-- Witness for `C5_color_rule`: bus `b2` and line `B` of the
`masterShared` run. -/
theorem C5_color_rule_witness :
    calculate_physics_state_internal rateAB (some masterShared) ∅ 25 2 1 (some ∅) =
      some simShared ∧
    resultB ∈ simShared.line_results ∧
    (("b2" ∈ simShared.bus_results ↔
      ∃ x ∈ simShared.line_results,
        x.initial_status = .overloaded ∧ (x.bus0 = "b2" ∨ x.bus1 = "b2")) ∧
    resultB.final_color =
      (if resultB.initial_status = .offline then Color.black
      else if resultB.initial_status = .overloaded then Color.red
      else if resultB.bus0 ∈ simShared.bus_results ∨ resultB.bus1 ∈ simShared.bus_results then
        Color.orange
      else Color.green)) := by
  have h1 : calculate_physics_state_internal rateAB (some masterShared) ∅ 25 2 1 (some ∅) =
      some simShared := by
    norm_num +decide [calculate_physics_state_internal, simLineResults, simRaw,
      active_lines, offline_lines_df, masterShared, rateAB, processLine, line_current,
      line_loading, line_status, overloadedBuses, finalColor, sumP0At,
      List.insertionSort, List.orderedInsert, loadingGE, simShared]
  have h2 : resultB ∈ simShared.line_results := by simp [simShared, resultB]
  exact ⟨h1, h2, C5_color_rule _ _ _ _ _ _ _ _ _ _ h1 h2⟩

/-! ## C2 -/

/-- C2, corrected: when the offline set is passed explicitly
(`forced_offline_lines` is not `None`), the simulator result does not
depend on the session offline set at all (and the simulator never writes
the session set: in this embedding it takes it as a plain value and
returns none).  The original claim fails because of the implicit fallback
for `forced_offline_lines=None`, exhibited by `C2_counterexample`. -/
theorem C2_explicit_offline_independent (rate : ℚ → ℚ → Line → Option ℚ)
    (master : Option (List Line)) (session1 session2 : Finset String)
    (temp wind load_mult : ℚ) (S : Finset String) :
    calculate_physics_state_internal rate master session1 temp wind load_mult (some S) =
      calculate_physics_state_internal rate master session2 temp wind load_mult (some S) := by
  cases master <;> rfl

/-- C2, counterexample to the claim as stated: with the offline-set
parameter omitted (`None`), the simulator reads the session set — two runs
with identical ambient conditions, load multiplier and (absent) offline
parameter differ when the session sets differ. -/
theorem C2_counterexample :
    (calculate_physics_state_internal rate1 (some masterTwo) ∅ 25 2 1 none).map
        (fun res => res.report.failure_count) = some 2 ∧
    (calculate_physics_state_internal rate1 (some masterTwo) {"A"} 25 2 1 none).map
        (fun res => res.report.failure_count) = some 1 ∧
    calculate_physics_state_internal rate1 (some masterTwo) ∅ 25 2 1 none ≠
      calculate_physics_state_internal rate1 (some masterTwo) {"A"} 25 2 1 none := by
  have h1 :
      (calculate_physics_state_internal rate1 (some masterTwo) ∅ 25 2 1 none).map
        (fun res => res.report.failure_count) = some 2 := by
    norm_num +decide [calculate_physics_state_internal, simLineResults, simRaw,
      active_lines, offline_lines_df, masterTwo, rate1, processLine, line_current,
      line_loading, line_status, overloadedBuses, finalColor, sumP0At,
      List.insertionSort, List.orderedInsert, loadingGE]
  have h2 :
      (calculate_physics_state_internal rate1 (some masterTwo) {"A"} 25 2 1 none).map
        (fun res => res.report.failure_count) = some 1 := by
    norm_num +decide [calculate_physics_state_internal, simLineResults, simRaw,
      active_lines, offline_lines_df, masterTwo, rate1, processLine, line_current,
      line_loading, line_status, overloadedBuses, finalColor, sumP0At,
      List.insertionSort, List.orderedInsert, loadingGE]
  refine ⟨h1, h2, ?_⟩
  intro h
  rw [h] at h1
  rw [h1] at h2
  exact Option.noConfusion h2 (fun h => by omega)

/-! ## C3 -/

/-- C3, counterexample to the claim as stated: `toggle_line` performs no
lookup against the loaded topology; the name `C` is not a line of
`masterTwo`, yet the call succeeds and adds it to the offline set. -/
theorem C3_counterexample :
    toggle_line (some "C") ∅ = .ok ("C", "offline", {"C"}) ∧
    "C" ∉ masterTwo.map Line.name := by
  constructor
  · simp [toggle_line]
  · decide

/-- C3, corrected: the operation fails (and leaves no successor set)
exactly when the supplied name is absent or empty; any non-empty name —
known line or not — is toggled: removed if present, inserted otherwise. -/
theorem C3_toggle_validation (n : String) (S : Finset String) :
    (toggle_line none S).isOk = false ∧
    ((toggle_line (some n) S).isOk = false ↔ n = "") ∧
    (n ≠ "" →
      toggle_line (some n) S =
        if n ∈ S then .ok (n, "online", S.erase n)
        else .ok (n, "offline", insert n S)) := by
  refine ⟨rfl, ?_, ?_⟩
  · by_cases hn : n = ""
    · simp [toggle_line, hn, Except.isOk, Except.toBool]
    · by_cases hm : n ∈ S <;>
        simp [toggle_line, hn, hm, Except.isOk, Except.toBool]
  · intro hn
    by_cases hm : n ∈ S <;> simp [toggle_line, hn, hm]

/-- Witness for `C3_toggle_validation` at the unknown, non-empty name `B`
and the empty session set. -/
theorem C3_toggle_validation_witness :
    ("B" : String) ≠ "" ∧
    toggle_line (some "B") ∅ = .ok ("B", "offline", insert "B" ∅) := by
  refine ⟨by decide, ?_⟩
  have h := (C3_toggle_validation "B" ∅).2.2 (by decide)
  simpa using h

/-! ## C10 -/

/-- C10, confirmed: toggling a non-empty name `L` replaces the session set
`S` by the symmetric difference `S ∆ {L}` — membership of `L` flips and
membership of any other name `x` is untouched — and toggling `L` again
restores exactly `S`. -/
theorem C10_toggle_involution (L x : String) (S : Finset String)
    (hL : L ≠ "") (hx : x ≠ L) :
    ((toggle_line (some L) S).toOption.map fun t => t.2.2) = some (symmDiff S {L}) ∧
    (L ∈ symmDiff S {L} ↔ L ∉ S) ∧
    (x ∈ symmDiff S {L} ↔ x ∈ S) ∧
    ((toggle_line (some L) (symmDiff S {L})).toOption.map fun t => t.2.2) = some S := by
  have hsymm : symmDiff S {L} = if L ∈ S then S.erase L else insert L S := by
    split_ifs with hmem
    · ext y
      simp only [symmDiff_def, Finset.sup_eq_union, Finset.mem_union, Finset.mem_sdiff,
        Finset.mem_singleton, Finset.mem_erase]
      constructor
      · rintro (⟨hy, hne⟩ | ⟨rfl, habs⟩)
        · exact ⟨hne, hy⟩
        · exact absurd hmem habs
      · rintro ⟨hne, hy⟩
        exact Or.inl ⟨hy, hne⟩
    · ext y
      simp only [symmDiff_def, Finset.sup_eq_union, Finset.mem_union, Finset.mem_sdiff,
        Finset.mem_singleton, Finset.mem_insert]
      constructor
      · rintro (⟨hy, _⟩ | ⟨rfl, _⟩)
        · exact Or.inr hy
        · exact Or.inl rfl
      · rintro (rfl | hy)
        · exact Or.inr ⟨rfl, hmem⟩
        · by_cases hyL : y = L
          · exact Or.inr ⟨hyL, hyL ▸ hmem⟩
          · exact Or.inl ⟨hy, hyL⟩
  by_cases hmem : L ∈ S
  · rw [hsymm, if_pos hmem]
    refine ⟨?_, ?_, ?_, ?_⟩
    · simp [toggle_line, hL, hmem, Except.toOption]
    · simp [Finset.mem_erase, hmem]
    · simp [Finset.mem_erase, hx]
    · have hnot : L ∉ S.erase L := Finset.not_mem_erase L S
      simp only [toggle_line, hL, if_neg hL, if_neg hnot, Except.toOption, Option.map_some]
      rw [Finset.insert_erase hmem]
      simp [Except.toOption]
  · rw [hsymm, if_neg hmem]
    refine ⟨?_, ?_, ?_, ?_⟩
    · simp [toggle_line, hL, hmem, Except.toOption]
    · simp [Finset.mem_insert, hmem]
    · simp [Finset.mem_insert, hx]
    · have hin : L ∈ insert L S := Finset.mem_insert_self L S
      simp only [toggle_line, if_neg hL, if_pos hin, Except.toOption, Option.map_some]
      rw [Finset.erase_insert hmem]
      rfl

/-! ## C9 -/

/-- C9, confirmed: in every simulation result, a line whose recorded
`rating_mva` is zero or negative has loading exactly 0 — the loading
formula `(current / rating - 1) * 100` is only applied behind the
`rating_mva > 0` guard, so the simulator never divides by a zero rating. -/
theorem C9_zero_rating_zero_loading (rate : ℚ → ℚ → Line → Option ℚ)
    (lines : List Line) (session : Finset String) (temp wind load_mult : ℚ)
    (forced : Option (Finset String)) (res : SimResult)
    (hres : calculate_physics_state_internal rate (some lines) session temp wind
      load_mult forced = some res)
    (r : LineResult) (hr : r ∈ res.line_results) (hrate : r.rating_mva ≤ 0) :
    r.loading = 0 := by
  rw [line_results_eq rate lines session temp wind load_mult forced res hres] at hr
  obtain ⟨l, hl, rfl⟩ := mem_simLineResults _ _ _ _ _ _ _ hr
  rw [finalColor_rating_mva] at hrate
  rw [finalColor_loading]
  exact processLine_loading_zero_of_rating_nonpos _ _ _ _ _ _ _ _ hrate

/-- Witness for `C9_zero_rating_zero_loading`: a single-line grid whose
rating oracle returns 0 MVA. -/
theorem C9_zero_rating_zero_loading_witness :
    calculate_physics_state_internal rate0 (some masterSingle) ∅ 25 2 1 (some ∅) =
      some simSingle0 ∧
    (⟨"A", "b1", "b2", 0, .stressed, .green, 2, 0⟩ : LineResult) ∈ simSingle0.line_results ∧
    (⟨"A", "b1", "b2", 0, .stressed, .green, 2, 0⟩ : LineResult).rating_mva ≤ 0 ∧
    (⟨"A", "b1", "b2", 0, .stressed, .green, 2, 0⟩ : LineResult).loading = 0 := by
  have h1 : calculate_physics_state_internal rate0 (some masterSingle) ∅ 25 2 1 (some ∅) =
      some simSingle0 := by
    norm_num +decide [calculate_physics_state_internal, simLineResults, simRaw,
      active_lines, offline_lines_df, masterSingle, rate0, processLine, line_current,
      line_loading, line_status, overloadedBuses, finalColor, sumP0At,
      List.insertionSort, List.orderedInsert, loadingGE, simSingle0]
  have h2 : (⟨"A", "b1", "b2", 0, .stressed, .green, 2, 0⟩ : LineResult) ∈
      simSingle0.line_results := by
    simp [simSingle0]
  have h3 : (⟨"A", "b1", "b2", 0, .stressed, .green, 2, 0⟩ : LineResult).rating_mva ≤ 0 :=
    le_refl 0
  exact ⟨h1, h2, h3, C9_zero_rating_zero_loading _ _ _ _ _ _ _ _ h1 _ h2 h3⟩

/-- Witness for `C10_toggle_involution` at `L = A`, `x = b`, `S = ∅`. -/
theorem C10_toggle_involution_witness :
    ("A" : String) ≠ "" ∧ ("b" : String) ≠ "A" ∧
    (((toggle_line (some "A") ∅).toOption.map fun t => t.2.2) =
      some (symmDiff ∅ {"A"}) ∧
    ("A" ∈ symmDiff (∅ : Finset String) {"A"} ↔ "A" ∉ (∅ : Finset String)) ∧
    ("b" ∈ symmDiff (∅ : Finset String) {"A"} ↔ "b" ∈ (∅ : Finset String)) ∧
    ((toggle_line (some "A") (symmDiff ∅ {"A"})).toOption.map fun t => t.2.2) =
      some (∅ : Finset String)) :=
  ⟨by decide, by decide, C10_toggle_involution "A" "b" ∅ (by decide) (by decide)⟩

end AEP
